import Mathlib

/-!
Verification of the "Four Agents in a Room" program (`four_agents_room.py`).

The Python source is shallowly embedded below:
* `RoomState` with its `add_message`, `get_present_agents` and `time_elapsed`
  methods;
* the `VoiceSynthesizer.say` queueing predicate;
* the `RoomAgent` proxy with `send_message` (including its reply-extraction
  expression, modelled with Python's actual operator precedence), `leave_room`
  and `return_to_room`;
* the `Room` controller operations `broadcast` and `send_direct_message`.

External effects are made explicit: wall-clock readings are passed in as
parameters, the agent backend is an oracle function from (agent id, content)
to a structured response, and backend calls made by an operation are returned
as a list so that "performs no backend call" is a provable statement.
Python sets are modelled as duplicate-free lists (set.add appends when absent,
set.discard filters), and the Python dict `Room.agents` as an association list.
-/

namespace FourAgentsRoom

/-- A history record, as built by `RoomState.add_message`:
`{"time": ..., "sender": ..., "content": ..., "recipient": recipient or "room"}`. -/
structure Msg where
  time : String
  sender : String
  content : String
  recipient : String
deriving DecidableEq, Repr

/-- `RoomState`: who is present, who is alone, the bounded history, and the
creation time (seconds on an absolute clock, standing for `datetime.now()`). -/
structure RoomState where
  agents_present : List String
  agents_alone : List String
  recent_messages : List Msg
  start_time : Nat
deriving DecidableEq, Repr

/-- Python `set.add`: no-op when the element is already a member. -/
def setAdd (s : List String) (x : String) : List String :=
  if x ∈ s then s else s ++ [x]

/-- Python `set.discard`: remove the element if present. -/
def setDiscard (s : List String) (x : String) : List String :=
  s.filter (fun y => y ≠ x)

/-- The list effect of `RoomState.add_message`: append the record, then
`pop(0)` once the length exceeds 50. -/
def capAppend (h : List Msg) (m : Msg) : List Msg :=
  let h2 := h ++ [m]
  if h2.length > 50 then h2.tail else h2

/-- `RoomState.add_message(sender, content, recipient=None)`; `now` stands for
`datetime.now().strftime("%H:%M:%S")` read at call time. -/
def RoomState.add_message (st : RoomState) (now sender content : String)
    (recipient : Option String) : RoomState :=
  let msg : Msg :=
    { time := now, sender := sender, content := content,
      recipient := recipient.getD "room" }
  { st with recent_messages := capAppend st.recent_messages msg }

/-- `RoomState.get_present_agents`: `list(self.agents_present)`. -/
def RoomState.get_present_agents (st : RoomState) : List String :=
  st.agents_present

/-- `f"{n:02d}"`: zero-pad to at least two digits. -/
def pad2 (n : Nat) : String :=
  if n < 10 then "0" ++ toString n else toString n

/-- `RoomState.time_elapsed`: `delta = datetime.now() - start_time`, then
`divmod(delta.seconds, 3600)` and `divmod(remainder, 60)`.  Python's
`timedelta.seconds` is the seconds component within a day, i.e. the total
elapsed seconds modulo 86400. -/
def RoomState.time_elapsed (st : RoomState) (nowSecs : Nat) : String :=
  let secs := (nowSecs - st.start_time) % 86400
  let hours := secs / 3600
  let remainder := secs % 3600
  let minutes := remainder / 60
  let seconds := remainder % 60
  pad2 hours ++ ":" ++ pad2 minutes ++ ":" ++ pad2 seconds

/-- Modelled from the spec: the spec's claim renders the full elapsed
duration (`started_at` to now) as hours:minutes:seconds "including durations
of 24 hours or more", i.e. without discarding whole days.  This definition
follows the spec's words and is compared against `RoomState.time_elapsed`
above, which embeds the source. -/
def time_elapsed_claimed (totalSecs : Nat) : String :=
  let hours := totalSecs / 3600
  let remainder := totalSecs % 3600
  let minutes := remainder / 60
  let seconds := remainder % 60
  pad2 hours ++ ":" ++ pad2 minutes ++ ":" ++ pad2 seconds

/-- The voice synthesizer state observable from `say`: the enabled flag and
the FIFO queue of (speaker, text) pairs. -/
structure Voice where
  enabled : Bool
  queue : List (String × String)
deriving DecidableEq, Repr

/-- `VoiceSynthesizer.say`: enqueue only
`if self.enabled and text and len(text) > 5`. -/
def Voice.say (v : Voice) (speaker text : String) : Voice :=
  if v.enabled = true ∧ text ≠ "" ∧ text.length > 5 then
    { v with queue := v.queue ++ [(speaker, text)] }
  else v

/-- One tool call in a backend message (`tool_calls[i].function.arguments`). -/
structure ToolCall where
  arguments : String
deriving DecidableEq, Repr

/-- One message of a backend response: a role, an optional text (Python
`None` or a possibly-empty string), and a possibly-empty tool-call list. -/
structure BackendMsg where
  role : String
  text : Option String
  tool_calls : List ToolCall
deriving DecidableEq, Repr

/-- The structured response of `client.send_message`. -/
structure BackendResponse where
  messages : List BackendMsg
deriving DecidableEq, Repr

/-- Python `a or b` for `a` an optional string: `b` when `a` is `None` or
the empty string (falsy), else `a`. -/
def pyStrOr (a : Option String) (b : String) : String :=
  match a with
  | none => b
  | some s => if s = "" then b else s

/-- The reply-extraction loop of `RoomAgent.send_message`:

    for msg in response.messages:
        if msg.role == "assistant":
            return msg.text or msg.tool_calls[0].function.arguments if msg.tool_calls else "..."
    return "..."

By Python operator precedence the returned expression parses as
`(msg.text or msg.tool_calls[0].function.arguments) if msg.tool_calls else "..."`:
when `tool_calls` is empty the branch yields `"..."` regardless of `msg.text`. -/
def extractReply : List BackendMsg → String
  | [] => "..."
  | m :: rest =>
    if m.role = "assistant" then
      match m.tool_calls with
      | [] => "..."
      | tc :: _ => pyStrOr m.text tc.arguments
    else extractReply rest

/-- The agent-backend oracle: maps (agent id, message content) to the
structured response the external service returns for that request. -/
def Backend : Type := String → String → BackendResponse

/-- `RoomAgent`: the per-persona proxy state (`self.name`, `self.is_present`,
`self.agent_id`).  The shared `self.room_state` is passed explicitly to the
operations that touch it. -/
structure RoomAgent where
  name : String
  is_present : Bool
  agent_id : Option String
deriving DecidableEq, Repr

/-- The observable outcome of `RoomAgent.send_message`: the returned string
and the backend requests (agent id, content) issued during the call. -/
structure SendResult where
  reply : String
  calls : List (String × String)
deriving DecidableEq, Repr

/-- `RoomAgent.send_message(content)`: return `"Agent not initialized"` with
no backend call when `agent_id` is `None`; otherwise call the backend once
and run the extraction loop over the response messages. -/
def RoomAgent.send_message (a : RoomAgent) (backend : Backend)
    (content : String) : SendResult :=
  match a.agent_id with
  | none => { reply := "Agent not initialized", calls := [] }
  | some aid =>
    { reply := extractReply (backend aid content).messages,
      calls := [(aid, content)] }

/-- `RoomAgent.leave_room`: when present, clear the flag, move the name from
`agents_present` to `agents_alone` and report the withdrawal; otherwise a
no-op that reports the existing state.  (`update_time_context` only writes a
memory block in the external backend; it does not change this state.) -/
def RoomAgent.leave_room (a : RoomAgent) (st : RoomState) :
    RoomAgent × RoomState × String :=
  if a.is_present then
    ({ a with is_present := false },
     { st with agents_present := setDiscard st.agents_present a.name,
               agents_alone := setAdd st.agents_alone a.name },
     a.name ++ " withdraws into solitude.")
  else (a, st, a.name ++ " is already alone.")

/-- `RoomAgent.return_to_room`: symmetric to `leave_room`. -/
def RoomAgent.return_to_room (a : RoomAgent) (st : RoomState) :
    RoomAgent × RoomState × String :=
  if !a.is_present then
    ({ a with is_present := true },
     { st with agents_alone := setDiscard st.agents_alone a.name,
               agents_present := setAdd st.agents_present a.name },
     a.name ++ " returns to the room.")
  else (a, st, a.name ++ " is already present.")

/-- The two presence transitions of the per-proxy state machine. -/
inductive PresenceOp where
  | leave
  | comeBack
deriving DecidableEq, Repr

/-- Apply one presence transition to a proxy and the shared room state,
dropping the reported string. -/
def stepPresence (op : PresenceOp) (s : RoomAgent × RoomState) :
    RoomAgent × RoomState :=
  match op with
  | .leave => let r := s.1.leave_room s.2; (r.1, r.2.1)
  | .comeBack => let r := s.1.return_to_room s.2; (r.1, r.2.1)

/-- Run a sequence of presence transitions. -/
def runPresence (ops : List PresenceOp) (s : RoomAgent × RoomState) :
    RoomAgent × RoomState :=
  ops.foldl (fun s op => stepPresence op s) s

/-- The `Room` controller state reachable from `broadcast` and
`send_direct_message`: the `self.agents` dict (an insertion-ordered
association list from persona name to proxy), the shared `RoomState`, and the
voice synthesizer. -/
structure Room where
  agents : List (String × RoomAgent)
  room_state : RoomState
  voice : Voice
deriving DecidableEq, Repr

/-- Python dict lookup on the `agents` association list. -/
def lookupAgent : List (String × RoomAgent) → String → Option RoomAgent
  | [], _ => none
  | (k, v) :: rest, name => if k = name then some v else lookupAgent rest name

/-- Fallback value for `self.agents[name]`; only reached when the dict lookup
would raise `KeyError` in Python, and always eliminated by a lookup
hypothesis in the theorems below. -/
def missingAgent (name : String) : RoomAgent :=
  { name := name, is_present := true, agent_id := none }

/-- The observable outcome of a `Room` command: the updated controller state,
the returned string, and the backend requests issued. -/
structure CmdResult where
  room : Room
  output : String
  calls : List (String × String)
deriving DecidableEq, Repr

/-- One iteration of the `broadcast` loop body, for a present persona `name`:
send the announcer-labelled message to the persona's proxy, append
`"{name}: {response}"` to the collected replies, enqueue the reply for
vocalization, and record `("Loudspeaker", message)` in the room history. -/
def broadcastStep (backend : Backend) (now message : String)
    (acc : Room × List String × List (String × String)) (name : String) :
    Room × List String × List (String × String) :=
  let r := acc.1
  let agent := (lookupAgent r.agents name).getD (missingAgent name)
  let sr := agent.send_message backend ("[Loudspeaker]: " ++ message)
  let r2 : Room :=
    { r with voice := r.voice.say name sr.reply,
             room_state := r.room_state.add_message now "Loudspeaker" message none }
  (r2, acc.2.1 ++ [name ++ ": " ++ sr.reply], acc.2.2 ++ sr.calls)

/-- `Room.broadcast(message)`: return the "unheard" string untouched when no
one is present; otherwise enqueue the announcement, run the loop body over
the present personas, and join the collected replies with newlines. -/
def Room.broadcast (r : Room) (backend : Backend) (now message : String) :
    CmdResult :=
  let present := r.room_state.get_present_agents
  if present.isEmpty then
    { room := r, output := "The room is empty. Your words echo unheard.",
      calls := [] }
  else
    let r1 : Room := { r with voice := r.voice.say "Loudspeaker" message }
    let acc := present.foldl (broadcastStep backend now message) (r1, [], [])
    { room := acc.1, output := String.intercalate "\n" acc.2.1,
      calls := acc.2.2 }

/-- `Room.send_direct_message(sender_name, recipient_name, message)`:
validate both names against the `agents` dict, then vocalize the sender's
message, deliver `"{sender} says: {message}"` to the recipient's proxy,
vocalize the reply, and record the exchange addressed to the recipient. -/
def Room.send_direct_message (r : Room) (backend : Backend)
    (now sender_name recipient_name message : String) : CmdResult :=
  if (lookupAgent r.agents sender_name).isNone then
    { room := r, output := "Unknown sender: " ++ sender_name, calls := [] }
  else if (lookupAgent r.agents recipient_name).isNone then
    { room := r, output := "Unknown recipient: " ++ recipient_name, calls := [] }
  else
    let v1 := r.voice.say sender_name message
    let recipient := (lookupAgent r.agents recipient_name).getD
      (missingAgent recipient_name)
    let sr := recipient.send_message backend (sender_name ++ " says: " ++ message)
    let v2 := v1.say recipient_name sr.reply
    let st := r.room_state.add_message now sender_name message (some recipient_name)
    { room := { r with voice := v2, room_state := st },
      output := recipient_name ++ ": " ++ sr.reply,
      calls := sr.calls }

/-!
A micro-step model of `RoomState.add_message` for the concurrency claim.
`RoomState` defines no lock, so when two threads run `add_message`
concurrently only the individual list operations (the `append` and the
guarded `pop(0)`) are atomic; the two-step bodies may interleave freely.
-/

/-- One atomic micro-operation of `add_message` on the history list. -/
inductive HistOp where
  | push (m : Msg)
  | condPop
deriving DecidableEq, Repr

/-- Execute one micro-operation: `push` is `recent_messages.append(msg)`,
`condPop` is `if len(recent_messages) > 50: recent_messages.pop(0)`. -/
def execHistOp (h : List Msg) : HistOp → List Msg
  | .push m => h ++ [m]
  | .condPop => if h.length > 50 then h.tail else h

/-- The micro-operation sequence of one `add_message(m)` call. -/
def addMessageSteps (m : Msg) : List HistOp :=
  [.push m, .condPop]

/-- Run a schedule of micro-operations over the history list. -/
def runHistOps (h : List Msg) (ops : List HistOp) : List Msg :=
  ops.foldl execHistOp h

/-! ### Basic facts about the set model -/

theorem mem_setAdd_self (s : List String) (x : String) : x ∈ setAdd s x := by
  unfold setAdd
  by_cases hx : x ∈ s
  · simp [hx]
  · simp [hx]

theorem not_mem_setDiscard_self (s : List String) (x : String) :
    x ∉ setDiscard s x := by
  unfold setDiscard
  simp

/-! ### The presence state machine (claim C2) -/

/-- The invariant tying a proxy's `is_present` flag to the `RoomState`
partition: the flag is set exactly when the name is in `agents_present`, and
cleared exactly when the name is in `agents_alone`. -/
def presenceInvariant (s : RoomAgent × RoomState) : Prop :=
  (s.1.is_present = true ↔ s.1.name ∈ s.2.agents_present)
  ∧ (s.1.is_present = false ↔ s.1.name ∈ s.2.agents_alone)

theorem stepPresence_invariant (op : PresenceOp) (s : RoomAgent × RoomState)
    (h : presenceInvariant s) : presenceInvariant (stepPresence op s) := by
  obtain ⟨a, st⟩ := s
  obtain ⟨h1, h2⟩ := h
  cases op with
  | leave =>
    by_cases hp : a.is_present
    · simp only [stepPresence, RoomAgent.leave_room, hp, if_true]
      constructor
      · simp [presenceInvariant, setDiscard]
      · simpa [presenceInvariant] using mem_setAdd_self st.agents_alone a.name
    · simp only [stepPresence, RoomAgent.leave_room, hp, if_false]
      exact ⟨h1, h2⟩
  | comeBack =>
    by_cases hp : a.is_present
    · simp only [stepPresence, RoomAgent.return_to_room, hp, Bool.not_true,
        Bool.false_eq_true, if_false]
      exact ⟨h1, h2⟩
    · simp only [stepPresence, RoomAgent.return_to_room, hp, Bool.not_false, if_true]
      constructor
      · simpa [presenceInvariant] using mem_setAdd_self st.agents_present a.name
      · simpa [presenceInvariant] using not_mem_setDiscard_self st.agents_alone a.name

theorem runPresence_invariant (ops : List PresenceOp) (s : RoomAgent × RoomState)
    (h : presenceInvariant s) : presenceInvariant (runPresence ops s) := by
  induction ops generalizing s with
  | nil => exact h
  | cons op ops ih => exact ih _ (stepPresence_invariant op s h)

theorem stepPresence_idem (op : PresenceOp) (s : RoomAgent × RoomState) :
    stepPresence op (stepPresence op s) = stepPresence op s := by
  obtain ⟨a, st⟩ := s
  cases op with
  | leave =>
    by_cases hp : a.is_present
    · simp [stepPresence, RoomAgent.leave_room, hp]
    · simp [stepPresence, RoomAgent.leave_room, hp]
  | comeBack =>
    by_cases hp : a.is_present
    · simp [stepPresence, RoomAgent.return_to_room, hp]
    · simp [stepPresence, RoomAgent.return_to_room, hp]

/-- C2: starting from a proxy that is present (flag set, name in
`agents_present`, name not in `agents_alone`), after every sequence of
`leave_room`/`return_to_room` transitions the persona is in exactly one of
the two sets, the `is_present` flag agrees with the partition, and repeating
the last transition immediately changes nothing (idempotent no-op). -/
theorem presence_partition_invariant (ops : List PresenceOp)
    (a0 : RoomAgent) (st0 : RoomState)
    (hflag : a0.is_present = true)
    (hpres : a0.name ∈ st0.agents_present)
    (halone : a0.name ∉ st0.agents_alone) :
    ((runPresence ops (a0, st0)).1.name ∈ (runPresence ops (a0, st0)).2.agents_present
        ∧ (runPresence ops (a0, st0)).1.name ∉ (runPresence ops (a0, st0)).2.agents_alone
      ∨ (runPresence ops (a0, st0)).1.name ∉ (runPresence ops (a0, st0)).2.agents_present
        ∧ (runPresence ops (a0, st0)).1.name ∈ (runPresence ops (a0, st0)).2.agents_alone)
    ∧ ((runPresence ops (a0, st0)).1.is_present = true ↔
        (runPresence ops (a0, st0)).1.name ∈ (runPresence ops (a0, st0)).2.agents_present)
    ∧ ∀ op, stepPresence op (stepPresence op (runPresence ops (a0, st0)))
        = stepPresence op (runPresence ops (a0, st0)) := by
  have hinv0 : presenceInvariant (a0, st0) := by
    constructor
    · simpa [hflag] using hpres
    · simp only [hflag]
      simpa using halone
  have hinv := runPresence_invariant ops (a0, st0) hinv0
  obtain ⟨h1, h2⟩ := hinv
  refine ⟨?_, h1, fun op => stepPresence_idem op _⟩
  by_cases hp : (runPresence ops (a0, st0)).1.is_present
  · left
    refine ⟨h1.mp hp, fun hmem => ?_⟩
    have := h2.mpr hmem
    simp [hp] at this
  · right
    refine ⟨fun hmem => hp (h1.mpr hmem), h2.mp (by simpa using hp)⟩

/-- Concrete instance of `presence_partition_invariant`: Alice, initially
present, after the sequence leave, leave, return. -/
theorem presence_partition_invariant_witness :
    (let s := runPresence [PresenceOp.leave, PresenceOp.leave, PresenceOp.comeBack]
        ({ name := "Alice", is_present := true, agent_id := some "idA" },
         { agents_present := ["Alice", "Bob"], agents_alone := [],
           recent_messages := [], start_time := 0 })
     (s.1.name ∈ s.2.agents_present ∧ s.1.name ∉ s.2.agents_alone
        ∨ s.1.name ∉ s.2.agents_present ∧ s.1.name ∈ s.2.agents_alone)
      ∧ (s.1.is_present = true ↔ s.1.name ∈ s.2.agents_present)
      ∧ ∀ op, stepPresence op (stepPresence op s) = stepPresence op s) :=
  presence_partition_invariant [PresenceOp.leave, PresenceOp.leave, PresenceOp.comeBack]
    { name := "Alice", is_present := true, agent_id := some "idA" }
    { agents_present := ["Alice", "Bob"], agents_alone := [],
      recent_messages := [], start_time := 0 }
    rfl (by decide) (by decide)

/-! ### Reply extraction (claims C1 and C10) -/

/-- C1: `RoomAgent.send_message` on a backend response whose assistant turn
carries plain text `"hello"` and no tool calls returns the ellipsis
placeholder `"..."` rather than the text: the extraction expression
`msg.text or msg.tool_calls[0].function.arguments if msg.tool_calls else "..."`
parses as `(text or args) if tool_calls else "..."`, so an empty `tool_calls`
discards the text. -/
theorem send_message_drops_plain_text_reply :
    (RoomAgent.send_message
        { name := "Alice", is_present := true, agent_id := some "agent-alice" }
        (fun _ _ =>
          { messages := [{ role := "assistant", text := some "hello",
                           tool_calls := [] }] })
        "hi").reply = "..."
    ∧ ("..." : String) ≠ "hello" := by
  exact ⟨rfl, by decide⟩

/-- C10: `send_message` on a proxy whose `agent_id` is `None` returns the
literal `"Agent not initialized"` and issues no backend request (and, the
operation reading no room state, mutates nothing). -/
theorem send_message_uninitialized (a : RoomAgent) (backend : Backend)
    (content : String) (h : a.agent_id = none) :
    a.send_message backend content
      = { reply := "Agent not initialized", calls := [] } := by
  unfold RoomAgent.send_message
  rw [h]

/-- Concrete instance of `send_message_uninitialized`. -/
theorem send_message_uninitialized_witness :
    RoomAgent.send_message
        { name := "Bob", is_present := true, agent_id := none }
        (fun _ _ => { messages := [] }) "hi"
      = { reply := "Agent not initialized", calls := [] } :=
  send_message_uninitialized
    { name := "Bob", is_present := true, agent_id := none }
    (fun _ _ => { messages := [] }) "hi" rfl

/-! ### Elapsed-time rendering (claim C6) -/

/-- C6 counterexample: after 90000 elapsed seconds (25 hours) the source's
`time_elapsed` renders `"01:00:00"` — `timedelta.seconds` discards whole
days — while the spec's reading of the claim renders `"25:00:00"`. -/
theorem time_elapsed_wraps_at_24_hours :
    RoomState.time_elapsed
        { agents_present := [], agents_alone := [], recent_messages := [],
          start_time := 0 } 90000 = "01:00:00"
    ∧ time_elapsed_claimed 90000 = "25:00:00"
    ∧ RoomState.time_elapsed
        { agents_present := [], agents_alone := [], recent_messages := [],
          start_time := 0 } 90000 ≠ time_elapsed_claimed 90000 := by
  refine ⟨by decide, by decide, by decide⟩

/-- C6 amended: `time_elapsed` renders the elapsed duration since
`start_time` **modulo 24 hours** as zero-padded hours:minutes:seconds (it
agrees with the spec's full rendering applied to the duration mod 86400
seconds), and no state operation mutates `start_time`. -/
theorem time_elapsed_mod_day (st : RoomState) (nowSecs : Nat)
    (now sender content : String) (recipient : Option String) (a : RoomAgent) :
    st.time_elapsed nowSecs = time_elapsed_claimed ((nowSecs - st.start_time) % 86400)
    ∧ (st.add_message now sender content recipient).start_time = st.start_time
    ∧ ((a.leave_room st).2.1).start_time = st.start_time
    ∧ ((a.return_to_room st).2.1).start_time = st.start_time := by
  refine ⟨rfl, rfl, ?_, ?_⟩
  · unfold RoomAgent.leave_room
    by_cases hp : a.is_present <;> simp [hp]
  · unfold RoomAgent.return_to_room
    by_cases hp : a.is_present <;> simp [hp]

/-! ### Voice queue length threshold (claim C8) -/

/-- C8: `VoiceSynthesizer.say` drops any utterance shorter than 6 characters
(the queue, hence any audio side effect, is untouched), and enqueues any
utterance of 6 or more characters whenever voice is enabled. -/
theorem say_length_threshold (v : Voice) (speaker text : String) :
    (text.length < 6 → v.say speaker text = v)
    ∧ (6 ≤ text.length → v.enabled = true →
        v.say speaker text = { v with queue := v.queue ++ [(speaker, text)] }) := by
  constructor
  · intro h
    unfold Voice.say
    rw [if_neg]
    rintro ⟨-, -, h5⟩
    omega
  · intro h6 hen
    unfold Voice.say
    rw [if_pos]
    refine ⟨hen, ?_, by omega⟩
    intro he
    rw [he] at h6
    simp at h6

/-- Concrete instances of `say_length_threshold`: a 2-character utterance is
dropped, an 11-character one is enqueued. -/
theorem say_length_threshold_witness :
    Voice.say { enabled := true, queue := [] } "Bob" "hi"
        = { enabled := true, queue := [] }
    ∧ Voice.say { enabled := true, queue := [] } "Bob" "hello there"
        = { enabled := true, queue := [("Bob", "hello there")] } :=
  ⟨(say_length_threshold { enabled := true, queue := [] } "Bob" "hi").1 (by decide),
   (say_length_threshold { enabled := true, queue := [] } "Bob" "hello there").2
      (by decide) rfl⟩

/-! ### Unlocked concurrent history mutation (claim C9) -/

/-- C9: `RoomState` declares no lock, so two concurrent `add_message` bodies
may interleave between their `append` and their guarded `pop(0)`.  Starting
from a full 50-entry history, the interleaving that runs both appends first
passes through a 52-entry history — the 50-entry cap is exceeded while both
calls are in flight — whereas the two calls run back-to-back keep the
history at 50. -/
theorem unlocked_history_interleaving_exceeds_cap :
    (runHistOps
        (List.replicate 50 { time := "t", sender := "s", content := "c",
                             recipient := "room" })
        [HistOp.push { time := "u", sender := "s", content := "c1", recipient := "room" },
         HistOp.push { time := "u", sender := "s", content := "c2", recipient := "room" }]).length
      = 52
    ∧ (runHistOps
        (List.replicate 50 { time := "t", sender := "s", content := "c",
                             recipient := "room" })
        (addMessageSteps { time := "u", sender := "s", content := "c1", recipient := "room" }
          ++ addMessageSteps { time := "u", sender := "s", content := "c2", recipient := "room" })).length
      = 50 := by
  refine ⟨by decide, by decide⟩

/-! ### History cap and FIFO eviction (claim C3) -/

/-- The record built by one `add_message` call from its raw arguments
(time string, sender, content, optional recipient). -/
def toMsg (i : String × String × String × Option String) : Msg :=
  { time := i.1, sender := i.2.1, content := i.2.2.1,
    recipient := i.2.2.2.getD "room" }

/-- Run a sequence of `add_message` calls on a `RoomState`. -/
def runAdds (st : RoomState)
    (inputs : List (String × String × String × Option String)) : RoomState :=
  inputs.foldl (fun s i => s.add_message i.1 i.2.1 i.2.2.1 i.2.2.2) st

/-- Folding `capAppend` keeps exactly the newest 50 records: starting from a
history within the cap, the result is the concatenation with the oldest
overflow dropped. -/
theorem capFold_eq_drop (ms : List Msg) (h : List Msg)
    (hle : h.length ≤ 50) :
    ms.foldl capAppend h = (h ++ ms).drop (h.length + ms.length - 50) := by
  induction ms generalizing h with
  | nil =>
    simp only [List.foldl_nil, List.append_nil, List.length_nil, Nat.add_zero]
    have h0 : h.length - 50 = 0 := by omega
    simp [h0]
  | cons m ms ih =>
    rw [List.foldl_cons]
    by_cases hc : h.length = 50
    · have hcap : capAppend h m = (h ++ [m]).drop 1 := by
        unfold capAppend
        rw [if_pos (by simp [hc])]
        simp [List.drop_one]
      have hlen : (capAppend h m).length = 50 := by
        rw [hcap]
        simp [hc]
      rw [ih (capAppend h m) (by omega), hlen, hcap]
      rw [← List.drop_append_of_le_length (by simp), List.drop_drop]
      have e1 : 1 + (50 + ms.length - 50) = h.length + (m :: ms).length - 50 := by
        simp only [List.length_cons, hc]
        omega
      have e2 : (h ++ [m]) ++ ms = h ++ m :: ms := by
        simp
      rw [e1, e2]
    · have hcap : capAppend h m = h ++ [m] := by
        unfold capAppend
        rw [if_neg (by simp; omega)]
      rw [ih (capAppend h m) (by rw [hcap]; simp; omega), hcap]
      have e1 : (h ++ [m]).length + ms.length - 50 = h.length + (m :: ms).length - 50 := by
        simp
        omega
      have e2 : (h ++ [m]) ++ ms = h ++ m :: ms := by
        simp
      rw [e1, e2]

/-- The history component of a sequence of `add_message` calls is the
`capAppend` fold of the corresponding records. -/
theorem runAdds_recent (inputs : List (String × String × String × Option String))
    (st : RoomState) :
    (runAdds st inputs).recent_messages
      = (inputs.map toMsg).foldl capAppend st.recent_messages := by
  induction inputs generalizing st with
  | nil => rfl
  | cons i is ih =>
    simp only [runAdds, List.foldl_cons, List.map_cons]
    exact ih (st.add_message i.1 i.2.1 i.2.2.1 i.2.2.2)

/-- C3: for every sequence of `add_message` calls starting within the cap the
history never exceeds 50 records, and 51 calls on a fresh state leave exactly
the newest 50 records in insertion order — the first-inserted record is
evicted. -/
theorem history_cap_fifo (st : RoomState)
    (inputs : List (String × String × String × Option String))
    (hle : st.recent_messages.length ≤ 50) :
    (runAdds st inputs).recent_messages.length ≤ 50
    ∧ (st.recent_messages = [] → inputs.length = 51 →
        (runAdds st inputs).recent_messages = (inputs.map toMsg).drop 1) := by
  have hr := runAdds_recent inputs st
  have hf := capFold_eq_drop (inputs.map toMsg) st.recent_messages hle
  constructor
  · rw [hr, hf]
    simp
    omega
  · intro h0 h51
    rw [hr, hf, h0]
    simp [h51]

/-- A fresh room state (empty history). -/
def freshState : RoomState :=
  { agents_present := [], agents_alone := [], recent_messages := [],
    start_time := 0 }

/-- 51 distinct `add_message` argument tuples. -/
def sampleInputs : List (String × String × String × Option String) :=
  (List.range 51).map (fun i => ("t", "sender" ++ toString i, "content", none))

/-- Concrete instance of `history_cap_fifo`: 51 inserts into a fresh state. -/
theorem history_cap_fifo_witness :
    (runAdds freshState sampleInputs).recent_messages.length ≤ 50
    ∧ (runAdds freshState sampleInputs).recent_messages
        = (sampleInputs.map toMsg).drop 1 :=
  ⟨(history_cap_fifo freshState sampleInputs (by decide)).1,
   (history_cap_fifo freshState sampleInputs (by decide)).2 rfl (by decide)⟩

/-! ### Direct messages (claims C5 and C7) -/

/-- `capAppend` always leaves the new record as the last history entry. -/
theorem capAppend_eq_append (h : List Msg) (m : Msg) :
    ∃ h2, capAppend h m = h2 ++ [m] := by
  unfold capAppend
  by_cases hc : (h ++ [m]).length > 50
  · refine ⟨h.tail, ?_⟩
    rw [if_pos hc]
    cases h with
    | nil => simp at hc
    | cons a t => simp
  · exact ⟨h, by rw [if_neg hc]⟩

/-- C5: `send_direct_message` with an unknown sender or recipient returns one
of the two unknown-participant strings, leaves the whole controller state
(history, presence, voice queue) untouched, and issues no backend request. -/
theorem direct_message_unknown_participant (r : Room) (backend : Backend)
    (now sender_name recipient_name message : String)
    (h : lookupAgent r.agents sender_name = none
      ∨ lookupAgent r.agents recipient_name = none) :
    (r.send_direct_message backend now sender_name recipient_name message).room = r
    ∧ (r.send_direct_message backend now sender_name recipient_name message).calls = []
    ∧ ((r.send_direct_message backend now sender_name recipient_name message).output
          = "Unknown sender: " ++ sender_name
        ∨ (r.send_direct_message backend now sender_name recipient_name message).output
          = "Unknown recipient: " ++ recipient_name) := by
  unfold Room.send_direct_message
  by_cases hs : lookupAgent r.agents sender_name = none
  · simp [hs]
  · have hr : lookupAgent r.agents recipient_name = none := h.resolve_left hs
    simp [hs, hr]

/-- Concrete instance of `direct_message_unknown_participant`: "Eve" is not a
known persona. -/
theorem direct_message_unknown_participant_witness :
    (Room.send_direct_message
        { agents := [("Alice", { name := "Alice", is_present := true,
                                 agent_id := some "idA" })],
          room_state := { agents_present := ["Alice"], agents_alone := [],
                          recent_messages := [], start_time := 0 },
          voice := { enabled := true, queue := [] } }
        (fun _ _ => { messages := [] }) "t" "Eve" "Alice" "hi").room
      = { agents := [("Alice", { name := "Alice", is_present := true,
                                 agent_id := some "idA" })],
          room_state := { agents_present := ["Alice"], agents_alone := [],
                          recent_messages := [], start_time := 0 },
          voice := { enabled := true, queue := [] } }
    ∧ (Room.send_direct_message
        { agents := [("Alice", { name := "Alice", is_present := true,
                                 agent_id := some "idA" })],
          room_state := { agents_present := ["Alice"], agents_alone := [],
                          recent_messages := [], start_time := 0 },
          voice := { enabled := true, queue := [] } }
        (fun _ _ => { messages := [] }) "t" "Eve" "Alice" "hi").calls = []
    ∧ ((Room.send_direct_message
        { agents := [("Alice", { name := "Alice", is_present := true,
                                 agent_id := some "idA" })],
          room_state := { agents_present := ["Alice"], agents_alone := [],
                          recent_messages := [], start_time := 0 },
          voice := { enabled := true, queue := [] } }
        (fun _ _ => { messages := [] }) "t" "Eve" "Alice" "hi").output
          = "Unknown sender: " ++ "Eve"
      ∨ (Room.send_direct_message
        { agents := [("Alice", { name := "Alice", is_present := true,
                                 agent_id := some "idA" })],
          room_state := { agents_present := ["Alice"], agents_alone := [],
                          recent_messages := [], start_time := 0 },
          voice := { enabled := true, queue := [] } }
        (fun _ _ => { messages := [] }) "t" "Eve" "Alice" "hi").output
          = "Unknown recipient: " ++ "Alice") :=
  direct_message_unknown_participant
    { agents := [("Alice", { name := "Alice", is_present := true,
                             agent_id := some "idA" })],
      room_state := { agents_present := ["Alice"], agents_alone := [],
                      recent_messages := [], start_time := 0 },
      voice := { enabled := true, queue := [] } }
    (fun _ _ => { messages := [] }) "t" "Eve" "Alice" "hi"
    (Or.inl (by decide))

/-- C7: between two known personas, `send_direct_message` always delivers —
one backend request to the recipient's session carrying
`"{sender} says: {message}"` — and records the message as the newest history
entry addressed to the recipient, whatever the presence partition says; the
presence sets themselves are untouched. -/
theorem direct_message_ignores_presence (r : Room) (backend : Backend)
    (now sender_name recipient_name message : String)
    (senderAgent recipientAgent : RoomAgent) (aid : String)
    (hs : lookupAgent r.agents sender_name = some senderAgent)
    (hr : lookupAgent r.agents recipient_name = some recipientAgent)
    (hid : recipientAgent.agent_id = some aid) :
    (r.send_direct_message backend now sender_name recipient_name message).calls
      = [(aid, sender_name ++ " says: " ++ message)]
    ∧ (∃ h2, (r.send_direct_message backend now sender_name recipient_name
          message).room.room_state.recent_messages
        = h2 ++ [{ time := now, sender := sender_name, content := message,
                   recipient := recipient_name }])
    ∧ (r.send_direct_message backend now sender_name recipient_name message).output
        = recipient_name ++ ": "
          ++ extractReply (backend aid (sender_name ++ " says: " ++ message)).messages
    ∧ (r.send_direct_message backend now sender_name recipient_name
          message).room.room_state.agents_present = r.room_state.agents_present
    ∧ (r.send_direct_message backend now sender_name recipient_name
          message).room.room_state.agents_alone = r.room_state.agents_alone := by
  unfold Room.send_direct_message
  simp only [hs, hr, Option.isNone_some, Bool.false_eq_true, if_false,
    Option.getD_some]
  unfold RoomAgent.send_message
  rw [hid]
  refine ⟨rfl, ?_, rfl, rfl, rfl⟩
  simpa [RoomState.add_message] using
    capAppend_eq_append r.room_state.recent_messages
      { time := now, sender := sender_name, content := message,
        recipient := recipient_name }

/-- A room in which Bob has withdrawn into solitude (the state after
`leave("Bob")`). -/
def bobAloneRoomW : Room :=
  { agents :=
      [("Alice", { name := "Alice", is_present := true, agent_id := some "idA" }),
       ("Bob", { name := "Bob", is_present := false, agent_id := some "idB" })],
    room_state := { agents_present := ["Alice"], agents_alone := ["Bob"],
                    recent_messages := [], start_time := 0 },
    voice := { enabled := true, queue := [] } }

/-- A backend for the direct-message witness: every response is one
assistant turn with a tool call carrying plain text, so extraction returns
the text. -/
def backendDirectW : Backend := fun aid _ =>
  { messages := [{ role := "assistant", text := some ("Reply of " ++ aid),
                   tool_calls := [{ arguments := "none" }] }] }

/-- Concrete instance of `direct_message_ignores_presence`: after
`leave("Bob")`, `direct_message("Alice","Bob","hi")` is still delivered to
Bob's session and recorded with recipient `"Bob"`. -/
theorem direct_message_ignores_presence_witness :
    (bobAloneRoomW.send_direct_message backendDirectW "t" "Alice" "Bob" "hi").calls
      = [("idB", "Alice" ++ " says: " ++ "hi")]
    ∧ (∃ h2, (bobAloneRoomW.send_direct_message backendDirectW "t" "Alice" "Bob"
          "hi").room.room_state.recent_messages
        = h2 ++ [{ time := "t", sender := "Alice", content := "hi",
                   recipient := "Bob" }])
    ∧ (bobAloneRoomW.send_direct_message backendDirectW "t" "Alice" "Bob" "hi").output
        = "Bob" ++ ": "
          ++ extractReply (backendDirectW "idB" ("Alice" ++ " says: " ++ "hi")).messages
    ∧ (bobAloneRoomW.send_direct_message backendDirectW "t" "Alice" "Bob"
          "hi").room.room_state.agents_present
        = bobAloneRoomW.room_state.agents_present
    ∧ (bobAloneRoomW.send_direct_message backendDirectW "t" "Alice" "Bob"
          "hi").room.room_state.agents_alone
        = bobAloneRoomW.room_state.agents_alone :=
  direct_message_ignores_presence bobAloneRoomW backendDirectW "t" "Alice" "Bob" "hi"
    { name := "Alice", is_present := true, agent_id := some "idA" }
    { name := "Bob", is_present := false, agent_id := some "idB" }
    "idB" rfl rfl rfl

/-! ### Broadcast (claim C4) -/

/-- The history record produced by each iteration of the `broadcast` loop:
`add_message("Loudspeaker", message)` with the default room recipient. -/
def broadcastEntry (now message : String) : Msg :=
  { time := now, sender := "Loudspeaker", content := message,
    recipient := "room" }

/-- Unfolding the `broadcast` loop over the present personas: the agents
dict is untouched, the history receives one `Loudspeaker`-to-room record per
present persona, the collected replies are one `"{name}: {reply}"` line per
present persona in present-order, and the backend requests are those of each
persona's `send_message` in the same order. -/
theorem broadcast_foldl (backend : Backend) (now message : String)
    (agentOf : String → RoomAgent) (names : List String)
    (r : Room) (resps : List String) (calls : List (String × String))
    (hlook : ∀ name ∈ names, lookupAgent r.agents name = some (agentOf name)) :
    (names.foldl (broadcastStep backend now message) (r, resps, calls)).1.agents
      = r.agents
    ∧ (names.foldl (broadcastStep backend now message)
          (r, resps, calls)).1.room_state.recent_messages
        = (List.replicate names.length (broadcastEntry now message)).foldl
            capAppend r.room_state.recent_messages
    ∧ (names.foldl (broadcastStep backend now message) (r, resps, calls)).2.1
        = resps ++ names.map (fun name =>
            name ++ ": " ++ ((agentOf name).send_message backend
              ("[Loudspeaker]: " ++ message)).reply)
    ∧ (names.foldl (broadcastStep backend now message) (r, resps, calls)).2.2
        = calls ++ names.flatMap (fun name =>
            ((agentOf name).send_message backend
              ("[Loudspeaker]: " ++ message)).calls) := by
  induction names generalizing r resps calls with
  | nil => simp
  | cons name names ih =>
    have hhead : lookupAgent r.agents name = some (agentOf name) :=
      hlook name (by simp)
    rw [List.foldl_cons]
    have hstep : broadcastStep backend now message (r, resps, calls) name
        = ({ r with
              voice := r.voice.say name ((agentOf name).send_message backend
                ("[Loudspeaker]: " ++ message)).reply,
              room_state := r.room_state.add_message now "Loudspeaker" message none },
           resps ++ [name ++ ": " ++ ((agentOf name).send_message backend
             ("[Loudspeaker]: " ++ message)).reply],
           calls ++ ((agentOf name).send_message backend
             ("[Loudspeaker]: " ++ message)).calls) := by
      simp only [broadcastStep, hhead, Option.getD_some]
    rw [hstep]
    obtain ⟨ih1, ih2, ih3, ih4⟩ := ih
      { r with
          voice := r.voice.say name ((agentOf name).send_message backend
            ("[Loudspeaker]: " ++ message)).reply,
          room_state := r.room_state.add_message now "Loudspeaker" message none }
      (resps ++ [name ++ ": " ++ ((agentOf name).send_message backend
        ("[Loudspeaker]: " ++ message)).reply])
      (calls ++ ((agentOf name).send_message backend
        ("[Loudspeaker]: " ++ message)).calls)
      (fun n hn => hlook n (by simp [hn]))
    dsimp only at ih1 ih2 ih3 ih4
    refine ⟨?_, ?_, ?_, ?_⟩
    · exact ih1
    · rw [ih2, List.length_cons, List.replicate_succ, List.foldl_cons]
      rfl
    · rw [ih3, List.map_cons, List.append_assoc, List.singleton_append]
    · rw [ih4, List.flatMap_cons, List.append_assoc]

/-- C4: `broadcast` on an empty room returns the "unheard" string with no
state change and no backend request; on a non-empty room (present personas
resolving in the agents dict, history within the cap) it appends one
`Loudspeaker`-to-room history record per present persona (evicting overflow
FIFO), returns the newline-joined `"{name}: {reply}"` lines in
present-order, and issues each present persona's backend request. -/
theorem broadcast_spec (r : Room) (backend : Backend) (now message : String) :
    (r.room_state.get_present_agents = [] →
       r.broadcast backend now message
         = { room := r, output := "The room is empty. Your words echo unheard.",
             calls := [] })
    ∧ ∀ agentOf : String → RoomAgent,
        (∀ name ∈ r.room_state.get_present_agents,
            lookupAgent r.agents name = some (agentOf name)) →
        r.room_state.get_present_agents ≠ [] →
        r.room_state.recent_messages.length ≤ 50 →
        ((r.broadcast backend now message).room.room_state.recent_messages
            = (r.room_state.recent_messages
                ++ List.replicate r.room_state.get_present_agents.length
                    (broadcastEntry now message)).drop
                (r.room_state.recent_messages.length
                  + r.room_state.get_present_agents.length - 50)
          ∧ (r.broadcast backend now message).output
            = String.intercalate "\n" (r.room_state.get_present_agents.map
                (fun name => name ++ ": " ++ ((agentOf name).send_message backend
                  ("[Loudspeaker]: " ++ message)).reply))
          ∧ (r.broadcast backend now message).calls
            = r.room_state.get_present_agents.flatMap (fun name =>
                ((agentOf name).send_message backend
                  ("[Loudspeaker]: " ++ message)).calls)) := by
  constructor
  · intro hp
    simp [Room.broadcast, hp]
  · intro agentOf hlook hne hle
    have hemp : (r.room_state.get_present_agents).isEmpty = false := by
      cases hq : r.room_state.get_present_agents with
      | nil => exact absurd hq hne
      | cons a t => rfl
    obtain ⟨f1, f2, f3, f4⟩ := broadcast_foldl backend now message agentOf
      (r.room_state.get_present_agents)
      { r with voice := r.voice.say "Loudspeaker" message } [] [] hlook
    dsimp only at f1 f2 f3 f4
    have hfold := capFold_eq_drop
      (List.replicate r.room_state.get_present_agents.length
        (broadcastEntry now message))
      r.room_state.recent_messages hle
    rw [List.length_replicate] at hfold
    refine ⟨?_, ?_, ?_⟩
    · simp only [Room.broadcast, hemp, Bool.false_eq_true, if_false]
      rw [f2, hfold]
    · simp only [Room.broadcast, hemp, Bool.false_eq_true, if_false]
      rw [f3, List.nil_append]
    · simp only [Room.broadcast, hemp, Bool.false_eq_true, if_false]
      rw [f4, List.nil_append]

/-- A room whose four personas are all in solitude (nobody present). -/
def emptyRoomW : Room :=
  { agents := [("Alice", { name := "Alice", is_present := false,
                           agent_id := some "idA" })],
    room_state := { agents_present := [], agents_alone := ["Alice"],
                    recent_messages := [], start_time := 0 },
    voice := { enabled := true, queue := [] } }

/-- A room with the four personas, all present. -/
def fourRoomW : Room :=
  { agents :=
      [("Alice", { name := "Alice", is_present := true, agent_id := some "idA" }),
       ("Bob", { name := "Bob", is_present := true, agent_id := some "idB" }),
       ("Charlie", { name := "Charlie", is_present := true, agent_id := some "idC" }),
       ("Diana", { name := "Diana", is_present := true, agent_id := some "idD" })],
    room_state := { agents_present := ["Alice", "Bob", "Charlie", "Diana"],
                    agents_alone := [], recent_messages := [], start_time := 0 },
    voice := { enabled := true, queue := [] } }

/-- A concrete backend whose every response is one assistant text turn with
a tool call (so the extraction returns the text). -/
def backendW : Backend := fun aid _ =>
  { messages := [{ role := "assistant", text := some ("Echo from " ++ aid),
                   tool_calls := [{ arguments := "none" }] }] }

/-- The proxies of `fourRoomW`, as a lookup function. -/
def agentOfW : String → RoomAgent := fun name =>
  if name = "Alice" then
    { name := "Alice", is_present := true, agent_id := some "idA" }
  else if name = "Bob" then
    { name := "Bob", is_present := true, agent_id := some "idB" }
  else if name = "Charlie" then
    { name := "Charlie", is_present := true, agent_id := some "idC" }
  else
    { name := "Diana", is_present := true, agent_id := some "idD" }

/-- Concrete instances of `broadcast_spec`: an empty room, and the four-
persona room of the end-to-end scenario. -/
theorem broadcast_spec_witness :
    Room.broadcast emptyRoomW backendW "t" "hello"
      = { room := emptyRoomW,
          output := "The room is empty. Your words echo unheard.", calls := [] }
    ∧ ((Room.broadcast fourRoomW backendW "t" "hello").room.room_state.recent_messages
          = (fourRoomW.room_state.recent_messages
              ++ List.replicate fourRoomW.room_state.get_present_agents.length
                  (broadcastEntry "t" "hello")).drop
              (fourRoomW.room_state.recent_messages.length
                + fourRoomW.room_state.get_present_agents.length - 50)
        ∧ (Room.broadcast fourRoomW backendW "t" "hello").output
          = String.intercalate "\n" (fourRoomW.room_state.get_present_agents.map
              (fun name => name ++ ": " ++ ((agentOfW name).send_message backendW
                ("[Loudspeaker]: " ++ "hello")).reply))
        ∧ (Room.broadcast fourRoomW backendW "t" "hello").calls
          = fourRoomW.room_state.get_present_agents.flatMap (fun name =>
              ((agentOfW name).send_message backendW
                ("[Loudspeaker]: " ++ "hello")).calls)) :=
  ⟨(broadcast_spec emptyRoomW backendW "t" "hello").1 rfl,
   (broadcast_spec fourRoomW backendW "t" "hello").2 agentOfW (by decide)
     (by decide) (by decide)⟩

end FourAgentsRoom
